import Mathlib

/-!
Shallow embedding of the ETF grid-monitor script (`etf.py`) and proofs about
its decision core.  Real-number arithmetic of the script is modelled exactly
over `ℚ`; Python `int(...)` truncation and `round(...)` banker's rounding are
modelled explicitly; Python dictionaries are modelled as association lists in
insertion order; exceptions are modelled with `Except`.  External
collaborators (HTTP price fetch, the wall clock, the notification channel)
enter as explicit inputs; the timestamp interpolated into each outgoing
message and the percent formatting inside the tier label are elided from the
message model, since no property refers to them.
-/

/-- Python `int(x)` applied to an exact rational: truncation toward zero,
i.e. T-division of the numerator by the denominator. -/
def pyTrunc (q : ℚ) : ℤ := q.num.tdiv q.den

/-- Python 3 `round(x)` to an integer: round half to even. -/
def pyRound (q : ℚ) : ℤ :=
  if q - ⌊q⌋ < 1/2 then ⌊q⌋
  else if 1/2 < q - ⌊q⌋ then ⌊q⌋ + 1
  else if ⌊q⌋ % 2 = 0 then ⌊q⌋ else ⌊q⌋ + 1

theorem pyTrunc_of_nonneg (q : ℚ) (h : 0 ≤ q) : pyTrunc q = ⌊q⌋ := by
  rw [pyTrunc, Rat.floor_def,
    Int.tdiv_eq_ediv (Rat.num_nonneg.mpr h) (Int.ofNat_nonneg q.den)]

theorem pyTrunc_of_neg (q : ℚ) (h : q < 0) : pyTrunc q = ⌈q⌉ := by
  have h1 : (-q).num.tdiv (-q).den = ⌊-q⌋ := by
    rw [Rat.floor_def,
      Int.tdiv_eq_ediv (Rat.num_nonneg.mpr (by linarith)) (Int.ofNat_nonneg _)]
  rw [Rat.num_neg_eq_neg_num, Rat.den_neg_eq_den, Int.neg_tdiv] at h1
  have h2 : pyTrunc q = -⌊-q⌋ := by rw [pyTrunc, ← h1, neg_neg]
  rw [h2, Int.floor_neg, neg_neg]

/-- Per-asset persisted state: `{"last_price": ..., "tick": ...}`
(`etf.py`, `load_state`). -/
structure AssetState where
  last_price : Option ℚ
  tick : ℤ
deriving DecidableEq

/-- The persisted state document: a Python dict from asset name to its state,
modelled as an association list in insertion order (keys unique in any
document the program itself builds). -/
abbrev StateMap := List (String × AssetState)

/-- Dict lookup (`state.get(name)` / `state[name]`): first matching key. -/
def lookupS : StateMap → String → Option AssetState
  | [], _ => none
  | (k, a) :: rest, name => if k = name then some a else lookupS rest name

/-- The mutation `state[name]["tick"] = t` on an existing entry. -/
def updateTick : StateMap → String → ℤ → StateMap
  | [], _, _ => []
  | (k, a) :: rest, name, t =>
    if k = name then (k, { a with tick := t }) :: rest
    else (k, a) :: updateTick rest name t

/-- The mutation `state[name]["last_price"] = p` on an existing entry. -/
def setLastPrice : StateMap → String → ℚ → StateMap
  | [], _, _ => []
  | (k, a) :: rest, name, p =>
    if k = name then (k, { a with last_price := some p }) :: rest
    else (k, a) :: setLastPrice rest name p

/-- Static per-asset configuration (one value of `ETF_CONFIG`).  `symbol` and
`base_price` are accessed with mandatory indexing in the source; every other
field is read through `.get(key, default)` and is therefore optional here. -/
structure AssetCfg where
  symbol : String
  base_price : ℚ
  dividend_yield : Option ℚ := none
  grid_pct : Option ℚ := none
  grid_low : Option ℚ := none
  grid_mid : Option ℚ := none
  grid_high : Option ℚ := none
  grid_expensive : Option ℚ := none
  step_pct : Option ℚ := none
  base_units : Option ℚ := none
deriving DecidableEq

/-- The source function `decide_grid_and_mode(cfg)` from `etf.py`: maps the configured dividend
yield to `(grid_pct, can_buy, can_sell, label)`.  The `DY=...` percentage
interpolated into the label string is elided. -/
def decide_grid_and_mode (cfg : AssetCfg) : ℚ × Bool × Bool × String :=
  match cfg.dividend_yield with
  | none => (cfg.grid_pct.getD (4/100), true, true, "未知")
  | some dy =>
    if dy ≥ 7/100 then (cfg.grid_low.getD (3/100), true, true, "A档极低估")
    else if 6/100 ≤ dy ∧ dy < 7/100 then
      (cfg.grid_mid.getD (4/100), true, true, "B档低估")
    else if 5/100 ≤ dy ∧ dy < 6/100 then
      (cfg.grid_high.getD (5/100), true, true, "C档合理")
    else (cfg.grid_expensive.getD (6/100), false, true, "D档偏贵")

/-- The tier table as the specification words it (§4.2), for comparison with
`decide_grid_and_mode`: contiguous brackets, boundary-inclusive on the lower
bound, labels dropped. -/
def decideTierSpec (cfg : AssetCfg) : ℚ × Bool × Bool :=
  match cfg.dividend_yield with
  | none => (cfg.grid_pct.getD (4/100), true, true)
  | some dy =>
    if 7/100 ≤ dy then (cfg.grid_low.getD (3/100), true, true)
    else if 6/100 ≤ dy then (cfg.grid_mid.getD (4/100), true, true)
    else if 5/100 ≤ dy then (cfg.grid_high.getD (5/100), true, true)
    else (cfg.grid_expensive.getD (6/100), false, true)

/-- The grid index the engine assigns to a price
(`int((price/base_price - 1) / grid_pct)` in `check_signals_for_etf`). -/
def currentGridOf (price base_price grid_pct : ℚ) : ℤ :=
  pyTrunc ((price / base_price - 1) / grid_pct)

/-- Python `range(a, b)` over integers, ascending. -/
def intRange (a b : ℤ) : List ℤ :=
  (List.range (b - a).toNat).map (fun i : ℕ => a + (i : ℤ))

/-- Python `range(a, b, -1)` over integers, descending. -/
def intRangeDown (a b : ℤ) : List ℤ :=
  (List.range (a - b).toNat).map (fun i : ℕ => a - (i : ℤ))

theorem intRange_length (a b : ℤ) : (intRange a b).length = (b - a).toNat := by
  simp [intRange]

theorem mem_intRange (a b x : ℤ) : x ∈ intRange a b ↔ a ≤ x ∧ x < b := by
  simp only [intRange, List.mem_map, List.mem_range]
  constructor
  · rintro ⟨i, hi, rfl⟩
    omega
  · rintro ⟨h1, h2⟩
    exact ⟨(x - a).toNat, by omega, by omega⟩

theorem intRange_pairwise (a b : ℤ) : (intRange a b).Pairwise (· < ·) := by
  rw [intRange]
  refine List.Pairwise.map _ (fun i j h => ?_) (List.pairwise_lt_range _)
  omega

theorem intRangeDown_length (a b : ℤ) :
    (intRangeDown a b).length = (a - b).toNat := by
  simp [intRangeDown]

theorem mem_intRangeDown (a b x : ℤ) :
    x ∈ intRangeDown a b ↔ b < x ∧ x ≤ a := by
  simp only [intRangeDown, List.mem_map, List.mem_range]
  constructor
  · rintro ⟨i, hi, rfl⟩
    omega
  · rintro ⟨h1, h2⟩
    exact ⟨(a - x).toNat, by omega, by omega⟩

theorem intRangeDown_pairwise (a b : ℤ) :
    (intRangeDown a b).Pairwise (· > ·) := by
  rw [intRangeDown]
  refine List.Pairwise.map _ (fun i j h => ?_) (List.pairwise_lt_range _)
  omega

/-- Which side of the grid a signal message is for. -/
inductive Side where
  | sell
  | buy
deriving DecidableEq

/-- The structured content interpolated into one grid signal message string
(timestamp elided). -/
structure GridMsg where
  name : String
  symbol : String
  label : String
  side : Side
  grid : ℤ
  grid_pct : ℚ
  level_price : ℚ
  current_price : ℚ
  step_units : ℤ
  step_pct : ℚ
deriving DecidableEq

/-- Failure modes of the price gateway (`DataUnavailable` for an empty or
zero price field, `TransportError` for network/timeout/non-2xx). -/
inductive FetchErr where
  | dataUnavailable
  | transportError
deriving DecidableEq

/-- Exceptions `check_signals_for_etf` can propagate: a `KeyError` from
`state[name]["tick"] = tick` when the asset is missing from the state dict,
or the price-gateway failure. -/
inductive EvalError where
  | keyError
  | fetchError
deriving DecidableEq

/-- The per-step suggested unit adjustment carried by every grid message:
`int(base_units * step_pct) if base_units else 0` in `check_signals_for_etf`. -/
def stepUnitsOf (cfg : AssetCfg) : ℤ :=
  if cfg.base_units.getD 0 = 0 then 0
  else pyTrunc (cfg.base_units.getD 0 * cfg.step_pct.getD (1/100))

/-- The structured content of one signal message, at grid index `g`. -/
def mkGridMsg (name : String) (cfg : AssetCfg) (s : Side)
    (grid_pct current_price step_pct : ℚ) (step_units : ℤ)
    (label : String) (g : ℤ) : GridMsg :=
  { name := name, symbol := cfg.symbol, label := label, side := s,
    grid := g, grid_pct := grid_pct,
    level_price := cfg.base_price * (1 + (g : ℚ) * grid_pct),
    current_price := current_price,
    step_units := step_units, step_pct := step_pct }

/-- The source function `check_signals_for_etf(name, cfg, state)` from
`etf.py`, with the price
gateway call replaced by its outcome `fetched` (the function's only external
input).  Returns the state dict as mutated up to the point of normal return
or raise, with the raised exception or the list of messages.  Statement
order follows the source: the tick is read and written back *before* the
price fetch; `last_price` is read after; the `if name not in state`
re-initialization (dead, see the C9 theorem) models `state[name] = {}` as a
fresh default entry. -/
def check_signals_for_etf (name : String) (cfg : AssetCfg)
    (fetched : Except FetchErr ℚ) (state : StateMap) :
    StateMap × Except EvalError (List GridMsg) :=
  let gm := decide_grid_and_mode cfg
  let grid_pct := gm.1
  let can_buy := gm.2.1
  let can_sell := gm.2.2.1
  let dy_label := gm.2.2.2
  let step_pct := cfg.step_pct.getD (1/100)
  let step_units : ℤ := stepUnitsOf cfg
  match lookupS state name with
  | none => (state, .error .keyError)
  | some prev =>
    let tick := prev.tick + 1
    let state1 := updateTick state name tick
    match fetched with
    | .error _ => (state1, .error .fetchError)
    | .ok current_price =>
      let last_price := (lookupS state1 name).bind (fun a => a.last_price)
      let state2 :=
        if (lookupS state1 name).isNone then state1 ++ [(name, ⟨none, 0⟩)]
        else state1
      match last_price with
      | none => (setLastPrice state2 name current_price, .ok [])
      | some lp =>
        let current_grid := currentGridOf current_price cfg.base_price grid_pct
        let last_grid := currentGridOf lp cfg.base_price grid_pct
        let msgs : List GridMsg :=
          if current_grid > last_grid ∧ can_sell = true then
            (intRange (last_grid + 1) (current_grid + 1)).map
              (mkGridMsg name cfg Side.sell grid_pct current_price step_pct step_units dy_label)
          else if current_grid < last_grid ∧ can_buy = true then
            (intRangeDown (last_grid - 1) (current_grid - 1)).map
              (mkGridMsg name cfg Side.buy grid_pct current_price step_pct step_units dy_label)
          else []
        (setLastPrice state2 name current_price, .ok msgs)

/-- Variant of `check_signals_for_etf` with the `if name not in state`
re-initialization
branch deleted, used to state that the branch is dead code. -/
def check_signals_no_reinit (name : String) (cfg : AssetCfg)
    (fetched : Except FetchErr ℚ) (state : StateMap) :
    StateMap × Except EvalError (List GridMsg) :=
  let gm := decide_grid_and_mode cfg
  let grid_pct := gm.1
  let can_buy := gm.2.1
  let can_sell := gm.2.2.1
  let dy_label := gm.2.2.2
  let step_pct := cfg.step_pct.getD (1/100)
  let step_units : ℤ := stepUnitsOf cfg
  match lookupS state name with
  | none => (state, .error .keyError)
  | some prev =>
    let tick := prev.tick + 1
    let state1 := updateTick state name tick
    match fetched with
    | .error _ => (state1, .error .fetchError)
    | .ok current_price =>
      let last_price := (lookupS state1 name).bind (fun a => a.last_price)
      match last_price with
      | none => (setLastPrice state1 name current_price, .ok [])
      | some lp =>
        let current_grid := currentGridOf current_price cfg.base_price grid_pct
        let last_grid := currentGridOf lp cfg.base_price grid_pct
        let msgs : List GridMsg :=
          if current_grid > last_grid ∧ can_sell = true then
            (intRange (last_grid + 1) (current_grid + 1)).map
              (mkGridMsg name cfg Side.sell grid_pct current_price step_pct step_units dy_label)
          else if current_grid < last_grid ∧ can_buy = true then
            (intRangeDown (last_grid - 1) (current_grid - 1)).map
              (mkGridMsg name cfg Side.buy grid_pct current_price step_pct step_units dy_label)
          else []
        (setLastPrice state1 name current_price, .ok msgs)

/-- The source function `save_state(state)` writes the state dict out as a JSON document; the
serialization round-trip is modelled as the identity on the document. -/
def save_state (state : StateMap) : StateMap := state

/-- One step of `load_state`'s merge loop: insert a configured asset name
with a fresh default entry when the loaded document lacks it. -/
def mergeStep (s : StateMap) (n : String) : StateMap :=
  if (lookupS s n).isSome then s else s ++ [(n, ⟨none, 0⟩)]

/-- The source function `load_state()` from `etf.py`, with the on-disk
document as input:
`none` models a missing or unreadable state file.  When a document is
present, every configured asset name missing from it is appended with
`{"last_price": None, "tick": 0}`; otherwise a fresh document is built. -/
def load_state (cfgNames : List String) (disk : Option StateMap) : StateMap :=
  match disk with
  | none => cfgNames.map (fun n => (n, ⟨none, 0⟩))
  | some st => cfgNames.foldl mergeStep st

theorem grid_mkGridMsg (name : String) (cfg : AssetCfg) (s : Side)
    (gp cp sp : ℚ) (su : ℤ) (lb : String) (g : ℤ) :
    (mkGridMsg name cfg s gp cp sp su lb g).grid = g := rfl

theorem side_mkGridMsg (name : String) (cfg : AssetCfg) (s : Side)
    (gp cp sp : ℚ) (su : ℤ) (lb : String) (g : ℤ) :
    (mkGridMsg name cfg s gp cp sp su lb g).side = s := rfl

theorem stepUnits_mkGridMsg (name : String) (cfg : AssetCfg) (s : Side)
    (gp cp sp : ℚ) (su : ℤ) (lb : String) (g : ℤ) :
    (mkGridMsg name cfg s gp cp sp su lb g).step_units = su := rfl

theorem lookupS_updateTick (st : StateMap) (n : String) (t : ℤ) :
    lookupS (updateTick st n t) n =
      (lookupS st n).map (fun a => ⟨a.last_price, t⟩) := by
  induction st with
  | nil => rfl
  | cons hd tl ih =>
    obtain ⟨k, a⟩ := hd
    by_cases hk : k = n <;> simp [updateTick, lookupS, hk, ih]

theorem lookupS_setLastPrice (st : StateMap) (n : String) (p : ℚ) :
    lookupS (setLastPrice st n p) n =
      (lookupS st n).map (fun a => ⟨some p, a.tick⟩) := by
  induction st with
  | nil => rfl
  | cons hd tl ih =>
    obtain ⟨k, a⟩ := hd
    by_cases hk : k = n <;> simp [setLastPrice, lookupS, hk, ih]

/-- Evaluation of `check_signals_for_etf` on its normal path: the asset is
present in the state with a recorded last price and the fetch succeeds. -/
theorem check_run_normal (name : String) (cfg : AssetCfg) (cp : ℚ)
    (st : StateMap) (prev : AssetState) (lp : ℚ)
    (hlook : lookupS st name = some prev) (hlp : prev.last_price = some lp) :
    check_signals_for_etf name cfg (.ok cp) st =
      (setLastPrice (updateTick st name (prev.tick + 1)) name cp,
       .ok (
        if currentGridOf cp cfg.base_price (decide_grid_and_mode cfg).1 >
            currentGridOf lp cfg.base_price (decide_grid_and_mode cfg).1 ∧
            (decide_grid_and_mode cfg).2.2.1 = true then
          (intRange
              (currentGridOf lp cfg.base_price (decide_grid_and_mode cfg).1 + 1)
              (currentGridOf cp cfg.base_price (decide_grid_and_mode cfg).1 + 1)).map
            (mkGridMsg name cfg Side.sell (decide_grid_and_mode cfg).1 cp
              (cfg.step_pct.getD (1/100)) (stepUnitsOf cfg)
              (decide_grid_and_mode cfg).2.2.2)
        else if currentGridOf cp cfg.base_price (decide_grid_and_mode cfg).1 <
            currentGridOf lp cfg.base_price (decide_grid_and_mode cfg).1 ∧
            (decide_grid_and_mode cfg).2.1 = true then
          (intRangeDown
              (currentGridOf lp cfg.base_price (decide_grid_and_mode cfg).1 - 1)
              (currentGridOf cp cfg.base_price (decide_grid_and_mode cfg).1 - 1)).map
            (mkGridMsg name cfg Side.buy (decide_grid_and_mode cfg).1 cp
              (cfg.step_pct.getD (1/100)) (stepUnitsOf cfg)
              (decide_grid_and_mode cfg).2.2.2)
        else [])) := by
  have h2 : lookupS (updateTick st name (prev.tick + 1)) name =
      some ⟨some lp, prev.tick + 1⟩ := by
    simp [lookupS_updateTick, hlook, hlp]
  simp only [check_signals_for_etf, hlook, h2, Option.some_bind,
    Option.isNone_some, Bool.false_eq_true, if_false]

/-- Evaluation of `check_signals_for_etf` when the price fetch fails: the
tick has already been written back, then the exception propagates. -/
theorem check_run_fetchfail (name : String) (cfg : AssetCfg) (e : FetchErr)
    (st : StateMap) (prev : AssetState)
    (hlook : lookupS st name = some prev) :
    check_signals_for_etf name cfg (.error e) st =
      (updateTick st name (prev.tick + 1), .error .fetchError) := by
  simp only [check_signals_for_etf, hlook]

/-- Evaluation of `check_signals_for_etf` on the first observation of an
asset: the price is recorded and no signal is emitted. -/
theorem check_run_firstrun (name : String) (cfg : AssetCfg) (cp : ℚ)
    (st : StateMap) (prev : AssetState)
    (hlook : lookupS st name = some prev) (hlp : prev.last_price = none) :
    check_signals_for_etf name cfg (.ok cp) st =
      (setLastPrice (updateTick st name (prev.tick + 1)) name cp, .ok []) := by
  have h2 : lookupS (updateTick st name (prev.tick + 1)) name =
      some ⟨none, prev.tick + 1⟩ := by
    simp [lookupS_updateTick, hlook, hlp]
  simp only [check_signals_for_etf, hlook, h2, Option.some_bind,
    Option.isNone_some, Bool.false_eq_true, if_false]

theorem mapGrid_mkGridMsg (l : List ℤ) (n : String) (c : AssetCfg) (s : Side)
    (gp cp sp : ℚ) (su : ℤ) (lb : String) :
    (l.map (mkGridMsg n c s gp cp sp su lb)).map (fun m => m.grid) = l := by
  simp [List.map_map, Function.comp_def, grid_mkGridMsg]

/-- C1, counterexample: at `price = 98`, `base_price = 100`,
`grid_pct = 0.04`, the engine assigns grid index `0`
(`int(-0.5) = 0`, truncation toward zero), while
`floor((price/base_price - 1)/grid_pct) = -1`, so the grid index is not
the floor when the price is below the base price. -/
theorem grid_index_not_floor_below_base :
    currentGridOf 98 100 (4/100) = 0 ∧
    ⌊(((98 : ℚ) / 100 - 1) / (4/100))⌋ = -1 := by
  constructor
  · have h : ((98 : ℚ) / 100 - 1) / (4/100) = -1/2 := by norm_num
    rw [currentGridOf, h]
    norm_num [pyTrunc]
    decide
  · norm_num

/-- C1, amended: for every price, `base_price > 0` and `grid_pct > 0`, the
grid index the engine assigns (both `current_grid` and `last_grid` in
`check_signals_for_etf` are computed by `currentGridOf`) is the truncation
toward zero of `(price/base_price - 1)/grid_pct`: it equals the floor when
`price ≥ base_price`, and the ceiling when `price < base_price`. -/
theorem grid_index_trunc_toward_zero (p bp gp : ℚ) (hbp : 0 < bp)
    (hgp : 0 < gp) :
    (bp ≤ p → currentGridOf p bp gp = ⌊(p / bp - 1) / gp⌋) ∧
    (p < bp → currentGridOf p bp gp = ⌈(p / bp - 1) / gp⌉) := by
  constructor
  · intro h
    have h1 : (1 : ℚ) ≤ p / bp := (one_le_div hbp).mpr h
    exact pyTrunc_of_nonneg _ (div_nonneg (by linarith) hgp.le)
  · intro h
    have h1 : p / bp < 1 := (div_lt_one hbp).mpr h
    exact pyTrunc_of_neg _ (div_neg_of_neg_of_pos (by linarith) hgp)

theorem grid_index_trunc_toward_zero_witness :
    currentGridOf 108 100 (4/100) = ⌊(((108 : ℚ) / 100 - 1) / (4/100))⌋ ∧
    currentGridOf 98 100 (4/100) = ⌈(((98 : ℚ) / 100 - 1) / (4/100))⌉ :=
  ⟨(grid_index_trunc_toward_zero 108 100 (4/100) (by norm_num)
      (by norm_num)).1 (by norm_num),
   (grid_index_trunc_toward_zero 98 100 (4/100) (by norm_num)
      (by norm_num)).2 (by norm_num)⟩

/-- C2: whenever the asset has a recorded last price, the fetch succeeds,
`last_grid < current_grid` and selling is allowed, `check_signals_for_etf`
emits exactly `current_grid - last_grid` sell messages whose grid indices
are strictly increasing and cover exactly `[last_grid+1, current_grid]`,
nearest line first. -/
theorem sell_crossing_messages (name : String) (cfg : AssetCfg)
    (st : StateMap) (prev : AssetState) (lp cp : ℚ) (lg cg : ℤ)
    (hlook : lookupS st name = some prev)
    (hlp : prev.last_price = some lp)
    (hsell : (decide_grid_and_mode cfg).2.2.1 = true)
    (hlg : lg = currentGridOf lp cfg.base_price (decide_grid_and_mode cfg).1)
    (hcg : cg = currentGridOf cp cfg.base_price (decide_grid_and_mode cfg).1)
    (hlt : lg < cg) :
    ∃ msgs : List GridMsg,
      (check_signals_for_etf name cfg (.ok cp) st).2 = .ok msgs ∧
      msgs.map (fun m => m.grid) = intRange (lg + 1) (cg + 1) ∧
      msgs.length = (cg - lg).toNat ∧
      (msgs.map (fun m => m.grid)).Pairwise (· < ·) ∧
      (∀ g : ℤ, g ∈ msgs.map (fun m => m.grid) ↔ lg + 1 ≤ g ∧ g ≤ cg) ∧
      ∀ m ∈ msgs, m.side = Side.sell := by
  subst hlg hcg
  rw [check_run_normal name cfg cp st prev lp hlook hlp]
  rw [if_pos ⟨hlt, hsell⟩]
  refine ⟨_, rfl, mapGrid_mkGridMsg _ _ _ _ _ _ _ _ _, ?_, ?_, ?_, ?_⟩
  · rw [List.length_map, intRange_length]
    omega
  · rw [mapGrid_mkGridMsg]
    exact intRange_pairwise _ _
  · intro g
    rw [mapGrid_mkGridMsg, mem_intRange]
    omega
  · intro m hm
    rw [List.mem_map] at hm
    obtain ⟨g, _, rfl⟩ := hm
    rfl

theorem sell_crossing_messages_witness :
    ∃ msgs : List GridMsg,
      (check_signals_for_etf "X"
          { symbol := "SH000001", base_price := 100, grid_pct := some (4/100) }
          (.ok 108) [("X", ⟨some 100, 0⟩)]).2 = .ok msgs ∧
      msgs.map (fun m => m.grid) = intRange (0 + 1) (2 + 1) ∧
      msgs.length = ((2 : ℤ) - 0).toNat ∧
      (msgs.map (fun m => m.grid)).Pairwise (· < ·) ∧
      (∀ g : ℤ, g ∈ msgs.map (fun m => m.grid) ↔ 0 + 1 ≤ g ∧ g ≤ 2) ∧
      ∀ m ∈ msgs, m.side = Side.sell :=
  sell_crossing_messages "X"
    { symbol := "SH000001", base_price := 100, grid_pct := some (4/100) }
    [("X", ⟨some 100, 0⟩)] ⟨some 100, 0⟩ 100 108 0 2
    (by simp [lookupS]) rfl rfl
    (by rw [currentGridOf]
        norm_num [decide_grid_and_mode]
        norm_num [pyTrunc])
    (by rw [currentGridOf]
        norm_num [decide_grid_and_mode]
        norm_num [pyTrunc])
    (by norm_num)

/-- C3: whenever the asset has a recorded last price, the fetch succeeds and
`current_grid < last_grid`: with buying allowed, `check_signals_for_etf`
emits exactly one buy message per grid index from `last_grid - 1` down to
`current_grid`, in descending order; with buying disallowed (tier D) it
emits no message at all. -/
theorem buy_crossing_messages (name : String) (cfg : AssetCfg)
    (st : StateMap) (prev : AssetState) (lp cp : ℚ) (lg cg : ℤ)
    (hlook : lookupS st name = some prev)
    (hlp : prev.last_price = some lp)
    (hlg : lg = currentGridOf lp cfg.base_price (decide_grid_and_mode cfg).1)
    (hcg : cg = currentGridOf cp cfg.base_price (decide_grid_and_mode cfg).1)
    (hlt : cg < lg) :
    ((decide_grid_and_mode cfg).2.1 = true →
      ∃ msgs : List GridMsg,
        (check_signals_for_etf name cfg (.ok cp) st).2 = .ok msgs ∧
        msgs.map (fun m => m.grid) = intRangeDown (lg - 1) (cg - 1) ∧
        msgs.length = (lg - cg).toNat ∧
        (msgs.map (fun m => m.grid)).Pairwise (· > ·) ∧
        (∀ g : ℤ, g ∈ msgs.map (fun m => m.grid) ↔ cg ≤ g ∧ g ≤ lg - 1) ∧
        ∀ m ∈ msgs, m.side = Side.buy) ∧
    ((decide_grid_and_mode cfg).2.1 = false →
      (check_signals_for_etf name cfg (.ok cp) st).2 = .ok []) := by
  subst hlg hcg
  rw [check_run_normal name cfg cp st prev lp hlook hlp]
  rw [if_neg (by rintro ⟨h1, -⟩; omega)]
  constructor
  · intro hbuy
    rw [if_pos ⟨hlt, hbuy⟩]
    refine ⟨_, rfl, mapGrid_mkGridMsg _ _ _ _ _ _ _ _ _, ?_, ?_, ?_, ?_⟩
    · rw [List.length_map, intRangeDown_length]
      omega
    · rw [mapGrid_mkGridMsg]
      exact intRangeDown_pairwise _ _
    · intro g
      rw [mapGrid_mkGridMsg, mem_intRangeDown]
      omega
    · intro m hm
      rw [List.mem_map] at hm
      obtain ⟨g, _, rfl⟩ := hm
      rfl
  · intro hbuy
    rw [if_neg (by rintro ⟨-, h2⟩; rw [hbuy] at h2; exact Bool.false_ne_true h2)]

theorem buy_crossing_messages_witness :
    (((decide_grid_and_mode
        { symbol := "SH000001", base_price := 100, grid_pct := some (4/100) }).2.1 = true →
      ∃ msgs : List GridMsg,
        (check_signals_for_etf "X"
            { symbol := "SH000001", base_price := 100, grid_pct := some (4/100) }
            (.ok 88) [("X", ⟨some 100, 0⟩)]).2 = .ok msgs ∧
        msgs.map (fun m => m.grid) = intRangeDown ((0 : ℤ) - 1) ((-3 : ℤ) - 1) ∧
        msgs.length = ((0 : ℤ) - (-3)).toNat ∧
        (msgs.map (fun m => m.grid)).Pairwise (· > ·) ∧
        (∀ g : ℤ, g ∈ msgs.map (fun m => m.grid) ↔ (-3 : ℤ) ≤ g ∧ g ≤ 0 - 1) ∧
        ∀ m ∈ msgs, m.side = Side.buy) ∧
    ((decide_grid_and_mode
        { symbol := "SH000001", base_price := 100, grid_pct := some (4/100) }).2.1 = false →
      (check_signals_for_etf "X"
          { symbol := "SH000001", base_price := 100, grid_pct := some (4/100) }
          (.ok 88) [("X", ⟨some 100, 0⟩)]).2 = .ok [])) ∧
    (check_signals_for_etf "Y"
        { symbol := "SH000002", base_price := 100, dividend_yield := some (3/100) }
        (.ok 88) [("Y", ⟨some 100, 5⟩)]).2 = .ok [] :=
  ⟨buy_crossing_messages "X"
    { symbol := "SH000001", base_price := 100, grid_pct := some (4/100) }
    [("X", ⟨some 100, 0⟩)] ⟨some 100, 0⟩ 100 88 0 (-3)
    (by simp [lookupS]) rfl
    (by rw [currentGridOf]
        norm_num [decide_grid_and_mode]
        norm_num [pyTrunc])
    (by rw [currentGridOf]
        norm_num [decide_grid_and_mode]
        norm_num [pyTrunc])
    (by norm_num),
   (buy_crossing_messages "Y"
    { symbol := "SH000002", base_price := 100, dividend_yield := some (3/100) }
    [("Y", ⟨some 100, 5⟩)] ⟨some 100, 5⟩ 100 88 0 (-2)
    (by simp [lookupS]) rfl
    (by rw [currentGridOf]
        norm_num [decide_grid_and_mode]
        norm_num [pyTrunc])
    (by rw [currentGridOf]
        norm_num [decide_grid_and_mode]
        norm_num [pyTrunc])
    (by norm_num)).2
    (by norm_num [decide_grid_and_mode])⟩

/-- C5, counterexample: a fetch failure does not leave the asset's persisted
state untouched — `state[name]["tick"] = tick` runs before the price fetch,
so the tick is already incremented (from 3 to 4 here) when the exception
propagates. -/
theorem fetch_failure_changes_state :
    lookupS (check_signals_for_etf "X" { symbol := "SH000001", base_price := 100 }
        (.error FetchErr.dataUnavailable) [("X", ⟨some 10, 3⟩)]).1 "X" ≠
      lookupS [("X", ⟨some 10, 3⟩)] "X" := by
  rw [check_run_fetchfail "X" _ FetchErr.dataUnavailable _ ⟨some 10, 3⟩
    (by simp [lookupS])]
  simp [lookupS, updateTick]

/-- C5, amended: when the price fetch fails with `DataUnavailable` or
`TransportError`, the asset's evaluation is skipped (the exception
propagates, no messages) and its `last_price` is untouched, but its `tick`
has already been incremented by one — the prior state is not left completely
unchanged. -/
theorem fetch_failure_skips_eval_but_increments_tick (name : String)
    (cfg : AssetCfg) (e : FetchErr) (st : StateMap) (prev : AssetState)
    (hlook : lookupS st name = some prev) :
    lookupS (check_signals_for_etf name cfg (.error e) st).1 name =
      some ⟨prev.last_price, prev.tick + 1⟩ ∧
    (check_signals_for_etf name cfg (.error e) st).2 =
      .error EvalError.fetchError := by
  rw [check_run_fetchfail name cfg e st prev hlook]
  exact ⟨by simp [lookupS_updateTick, hlook], rfl⟩

theorem fetch_failure_skips_eval_but_increments_tick_witness :
    lookupS (check_signals_for_etf "X" { symbol := "SH000001", base_price := 100 }
        (.error FetchErr.transportError) [("X", ⟨some 10, 3⟩)]).1 "X" =
      some ⟨some 10, 4⟩ ∧
    (check_signals_for_etf "X" { symbol := "SH000001", base_price := 100 }
        (.error FetchErr.transportError) [("X", ⟨some 10, 3⟩)]).2 =
      .error EvalError.fetchError :=
  fetch_failure_skips_eval_but_increments_tick "X"
    { symbol := "SH000001", base_price := 100 } FetchErr.transportError
    [("X", ⟨some 10, 3⟩)] ⟨some 10, 3⟩ (by simp [lookupS])

/-- The suggested unit adjustments carried by the messages of one evaluation
result. -/
def stepUnitsList (r : Except EvalError (List GridMsg)) : List ℤ :=
  (r.toOption.getD []).map (fun m => m.step_units)

/-- An evaluation of a concrete two-line sell crossing for an asset
configured with `base_units = 199` and `step_pct = 0.01`: both messages
carry suggested units `1`. -/
theorem stepUnitsList_concrete_run :
    stepUnitsList (check_signals_for_etf "X"
        { symbol := "SH000001", base_price := 100, grid_pct := some (4/100),
          step_pct := some (1/100), base_units := some 199 }
        (.ok 108) [("X", ⟨some 100, 0⟩)]).2 = [1, 1] := by
  rw [check_run_normal "X"
    { symbol := "SH000001", base_price := 100, grid_pct := some (4/100),
      step_pct := some (1/100), base_units := some 199 }
    108 [("X", ⟨some 100, 0⟩)] ⟨some 100, 0⟩ 100 (by simp [lookupS]) rfl]
  have hcg : currentGridOf 108 100
      ((decide_grid_and_mode
        { symbol := "SH000001", base_price := 100, grid_pct := some (4/100),
          step_pct := some (1/100), base_units := some 199 }).1) = 2 := by
    rw [currentGridOf]
    norm_num [decide_grid_and_mode]
    norm_num [pyTrunc]
  have hlg : currentGridOf 100 100
      ((decide_grid_and_mode
        { symbol := "SH000001", base_price := 100, grid_pct := some (4/100),
          step_pct := some (1/100), base_units := some 199 }).1) = 0 := by
    rw [currentGridOf]
    norm_num [decide_grid_and_mode]
    norm_num [pyTrunc]
  rw [hcg, hlg]
  rw [if_pos ⟨by norm_num, by norm_num [decide_grid_and_mode]⟩]
  have hsu : stepUnitsOf
      { symbol := "SH000001", base_price := 100, grid_pct := some (4/100),
        step_pct := some (1/100), base_units := some 199 } = 1 := by
    rw [stepUnitsOf]
    norm_num
    norm_num [pyTrunc]
    decide
  rw [stepUnitsList]
  simp only [Except.toOption, Option.getD, List.map_map]
  have hr : intRange (0 + 1) (2 + 1) = [1, 2] := by decide
  rw [hr]
  simp only [List.map_cons, List.map_nil, Function.comp_def,
    stepUnits_mkGridMsg]
  rw [hsu]

/-- C6, counterexample: with `base_units = 199` and `step_pct = 0.01`, every
emitted message carries suggested units `int(199 * 0.01) = 1` (truncation),
while rounding to the nearest integer would give `round(1.99) = 2`, so the
suggested adjustment is not `round(base_units * step_pct)`. -/
theorem step_units_not_rounded :
    stepUnitsList (check_signals_for_etf "X"
        { symbol := "SH000001", base_price := 100, grid_pct := some (4/100),
          step_pct := some (1/100), base_units := some 199 }
        (.ok 108) [("X", ⟨some 100, 0⟩)]).2 = [1, 1] ∧
    pyRound ((199 : ℚ) * (1/100)) = 2 := by
  refine ⟨stepUnitsList_concrete_run, ?_⟩
  rw [pyRound]
  norm_num

/-- C6, amended: the suggested unit adjustment carried by every emitted grid
signal message equals `int(base_units * step_pct)` — truncation toward zero
(`0` when `base_units` is `0`), not rounding to the nearest integer. -/
theorem step_units_truncated (name : String) (cfg : AssetCfg)
    (fetched : Except FetchErr ℚ) (st : StateMap) (su : ℤ)
    (hsu : su ∈ stepUnitsList (check_signals_for_etf name cfg fetched st).2) :
    su = stepUnitsOf cfg := by
  rcases hl : lookupS st name with - | prev
  · simp only [check_signals_for_etf, hl] at hsu
    simp [stepUnitsList, Except.toOption] at hsu
  · rcases fetched with e | cp
    · rw [check_run_fetchfail name cfg e st prev hl] at hsu
      simp [stepUnitsList, Except.toOption] at hsu
    · rcases hlp : prev.last_price with - | lp
      · rw [check_run_firstrun name cfg cp st prev hl hlp] at hsu
        simp [stepUnitsList, Except.toOption] at hsu
      · rw [check_run_normal name cfg cp st prev lp hl hlp] at hsu
        rw [stepUnitsList] at hsu
        simp only [Except.toOption, Option.getD] at hsu
        split at hsu
        · rw [List.mem_map] at hsu
          obtain ⟨m, hm, rfl⟩ := hsu
          rw [List.mem_map] at hm
          obtain ⟨g, -, rfl⟩ := hm
          rfl
        · split at hsu
          · rw [List.mem_map] at hsu
            obtain ⟨m, hm, rfl⟩ := hsu
            rw [List.mem_map] at hm
            obtain ⟨g, -, rfl⟩ := hm
            rfl
          · simp at hsu

theorem step_units_truncated_witness :
    (1 : ℤ) = stepUnitsOf
      { symbol := "SH000001", base_price := 100, grid_pct := some (4/100),
        step_pct := some (1/100), base_units := some 199 } :=
  step_units_truncated "X"
    { symbol := "SH000001", base_price := 100, grid_pct := some (4/100),
      step_pct := some (1/100), base_units := some 199 }
    (.ok 108) [("X", ⟨some 100, 0⟩)] 1
    (by rw [stepUnitsList_concrete_run]
        decide)

/-- C4: `decide_grid_and_mode` implements exactly the tier table of the
specification — yield unset gives the default grid with both sides enabled;
`yield ≥ 0.07` tier A (`grid_low`); `0.06 ≤ yield < 0.07` tier B
(`grid_mid`); `0.05 ≤ yield < 0.06` tier C (`grid_high`); `yield < 0.05`
tier D (`grid_expensive`, buying disabled, selling allowed).  The tiers are
contiguous and boundary-inclusive on the lower bound, and the function is
deterministic. -/
theorem tier_policy_matches_spec (cfg : AssetCfg) :
    ((decide_grid_and_mode cfg).1, (decide_grid_and_mode cfg).2.1,
      (decide_grid_and_mode cfg).2.2.1) = decideTierSpec cfg := by
  rcases h : cfg.dividend_yield with - | dy
  · simp [decide_grid_and_mode, decideTierSpec, h]
  · simp only [decide_grid_and_mode, decideTierSpec, h]
    rcases le_or_lt (7/100 : ℚ) dy with h7 | h7
    · rw [if_pos (show dy ≥ 7/100 from h7), if_pos h7]
    · rcases le_or_lt (6/100 : ℚ) dy with h6 | h6
      · rw [if_neg (show ¬ dy ≥ 7/100 from by linarith),
          if_pos (show (6 : ℚ)/100 ≤ dy ∧ dy < 7/100 from ⟨h6, h7⟩),
          if_neg (show ¬ (7 : ℚ)/100 ≤ dy from by linarith), if_pos h6]
      · rcases le_or_lt (5/100 : ℚ) dy with h5 | h5
        · rw [if_neg (show ¬ dy ≥ 7/100 from by linarith),
            if_neg (show ¬ ((6 : ℚ)/100 ≤ dy ∧ dy < 7/100) from by
              rintro ⟨a, -⟩; linarith),
            if_pos (show (5 : ℚ)/100 ≤ dy ∧ dy < 6/100 from ⟨h5, h6⟩),
            if_neg (show ¬ (7 : ℚ)/100 ≤ dy from by linarith),
            if_neg (show ¬ (6 : ℚ)/100 ≤ dy from by linarith), if_pos h5]
        · rw [if_neg (show ¬ dy ≥ 7/100 from by linarith),
            if_neg (show ¬ ((6 : ℚ)/100 ≤ dy ∧ dy < 7/100) from by
              rintro ⟨a, -⟩; linarith),
            if_neg (show ¬ ((5 : ℚ)/100 ≤ dy ∧ dy < 6/100) from by
              rintro ⟨a, -⟩; linarith),
            if_neg (show ¬ (7 : ℚ)/100 ≤ dy from by linarith),
            if_neg (show ¬ (6 : ℚ)/100 ≤ dy from by linarith),
            if_neg (show ¬ (5 : ℚ)/100 ≤ dy from by linarith)]

theorem lookupS_append_of_isSome (st l : StateMap) (k : String)
    (h : (lookupS st k).isSome) : lookupS (st ++ l) k = lookupS st k := by
  induction st with
  | nil => simp [lookupS] at h
  | cons hd tl ih =>
    obtain ⟨n, a⟩ := hd
    by_cases hk : n = k
    · simp [lookupS, hk]
    · simp only [List.cons_append, lookupS, hk, if_false] at h ⊢
      exact ih h

theorem lookupS_append_of_none (st l : StateMap) (k : String)
    (h : lookupS st k = none) : lookupS (st ++ l) k = lookupS l k := by
  induction st with
  | nil => rfl
  | cons hd tl ih =>
    obtain ⟨n, a⟩ := hd
    by_cases hk : n = k
    · simp [lookupS, hk] at h
    · simp only [lookupS, hk, if_false] at h
      simp only [List.cons_append, lookupS, hk, if_false]
      exact ih h

theorem foldl_mergeStep_preserves (names : List String) (st : StateMap)
    (k : String) (a : AssetState) (h : lookupS st k = some a) :
    lookupS (names.foldl mergeStep st) k = some a := by
  induction names generalizing st with
  | nil => exact h
  | cons n ns ih =>
    rw [List.foldl_cons]
    apply ih
    rw [mergeStep]
    split
    · exact h
    · rw [lookupS_append_of_isSome st _ k (by rw [h]; rfl)]
      exact h

theorem foldl_mergeStep_inserts (names : List String) (st : StateMap)
    (k : String) (hk : k ∈ names) (h : lookupS st k = none) :
    lookupS (names.foldl mergeStep st) k = some ⟨none, 0⟩ := by
  induction names generalizing st with
  | nil => cases hk
  | cons n ns ih =>
    rw [List.foldl_cons]
    rcases List.mem_cons.mp hk with rfl | hk'
    · have h2 : lookupS (mergeStep st k) k = some ⟨none, 0⟩ := by
        rw [mergeStep]
        split
        · rename_i hs
          rw [h] at hs
          cases hs
        · rw [lookupS_append_of_none st _ k h]
          simp [lookupS]
      exact foldl_mergeStep_preserves ns _ k _ h2
    · by_cases hs : (lookupS (mergeStep st n) k).isSome
      · obtain ⟨a, ha⟩ := Option.isSome_iff_exists.mp hs
        have : a = ⟨none, 0⟩ := by
          rw [mergeStep] at ha
          split at ha
          · rw [h] at ha
            cases ha
          · rw [lookupS_append_of_none st _ k h] at ha
            by_cases hnk : n = k
            · simp only [lookupS, hnk, if_pos rfl] at ha
              exact (Option.some_injective _ ha).symm
            · simp [lookupS, hnk] at ha
        subst this
        exact foldl_mergeStep_preserves ns _ k _ ha
      · exact ih _ hk' (Option.not_isSome_iff_eq_none.mp hs)

/-- C8: saving the state document and reloading it against a configured
asset-name list yields the identical entry for every asset already present
(nothing is discarded by the merge), and every configured asset absent from
the loaded document appears as `{last_price: null, tick: 0}`. -/
theorem state_roundtrip (names : List String) (st : StateMap) (k : String) :
    (∀ a : AssetState, lookupS st k = some a →
      lookupS (load_state names (some (save_state st))) k = some a) ∧
    (k ∈ names → lookupS st k = none →
      lookupS (load_state names (some (save_state st))) k = some ⟨none, 0⟩) := by
  constructor
  · intro a ha
    exact foldl_mergeStep_preserves names st k a ha
  · intro hk hnone
    exact foldl_mergeStep_inserts names st k hk hnone

theorem state_roundtrip_witness :
    lookupS (load_state ["A", "B"] (some (save_state [("A", ⟨some 2, 3⟩)]))) "A" =
      some ⟨some 2, 3⟩ ∧
    lookupS (load_state ["A", "B"] (some (save_state [("A", ⟨some 2, 3⟩)]))) "B" =
      some ⟨none, 0⟩ :=
  ⟨(state_roundtrip ["A", "B"] [("A", ⟨some 2, 3⟩)] "A").1 ⟨some 2, 3⟩
      (by simp [lookupS]),
   (state_roundtrip ["A", "B"] [("A", ⟨some 2, 3⟩)] "B").2 (by simp)
      (by simp [lookupS])⟩

theorem check_eq_no_reinit (name : String) (cfg : AssetCfg)
    (fetched : Except FetchErr ℚ) (st : StateMap) :
    check_signals_for_etf name cfg fetched st =
      check_signals_no_reinit name cfg fetched st := by
  rcases hl : lookupS st name with - | prev
  · simp only [check_signals_for_etf, check_signals_no_reinit, hl]
  · rcases fetched with e | cp
    · simp only [check_signals_for_etf, check_signals_no_reinit, hl]
    · have h2 : lookupS (updateTick st name (prev.tick + 1)) name =
          some ⟨prev.last_price, prev.tick + 1⟩ := by
        simp [lookupS_updateTick, hl]
      simp only [check_signals_for_etf, check_signals_no_reinit, hl, h2,
        Option.some_bind, Option.isNone_some, Bool.false_eq_true, if_false]

/-- C9: an asset name absent from the state dict makes
`check_signals_for_etf` raise `KeyError` at `state[name]["tick"] = tick`,
leaving the state unchanged, before its own `if name not in state` branch
can run — that branch is dead code (deleting it never changes the result) —
and under `main_loop` the failure is unreachable because `load_state` puts
every configured asset name into the state before any evaluation. -/
theorem missing_asset_keyerror_and_dead_reinit (name : String)
    (cfg : AssetCfg) (fetched : Except FetchErr ℚ) (st : StateMap)
    (names : List String) (disk : Option StateMap) :
    (lookupS st name = none →
      check_signals_for_etf name cfg fetched st =
        (st, .error EvalError.keyError)) ∧
    check_signals_for_etf name cfg fetched st =
      check_signals_no_reinit name cfg fetched st ∧
    (name ∈ names → (lookupS (load_state names disk) name).isSome) := by
  refine ⟨?_, check_eq_no_reinit name cfg fetched st, ?_⟩
  · intro h
    simp only [check_signals_for_etf, h]
  · intro hn
    rcases disk with - | doc
    · rw [load_state]
      induction names with
      | nil => cases hn
      | cons n ns ih =>
        rcases List.mem_cons.mp hn with rfl | hn'
        · simp [lookupS]
        · by_cases hk : n = name
          · simp [lookupS, hk]
          · simp only [List.map_cons, lookupS, hk, if_false]
            exact ih hn'
    · rw [load_state]
      rcases hd : lookupS doc name with - | a
      · rw [foldl_mergeStep_inserts names doc name hn hd]
        rfl
      · rw [foldl_mergeStep_preserves names doc name a hd]
        rfl

theorem missing_asset_keyerror_witness :
    check_signals_for_etf "A" { symbol := "SH000001", base_price := 100 }
        (.ok 1) [] = ([], .error EvalError.keyError) ∧
    (lookupS (load_state ["A"] none) "A").isSome :=
  ⟨(missing_asset_keyerror_and_dead_reinit "A"
      { symbol := "SH000001", base_price := 100 } (.ok 1) [] ["A"] none).1 rfl,
   (missing_asset_keyerror_and_dead_reinit "A"
      { symbol := "SH000001", base_price := 100 } (.ok 1) [] ["A"] none).2.2
      (by simp)⟩

/-- Dict lookup in the `ETF_CONFIG` mapping. -/
def lookupC : List (String × AssetCfg) → String → Option AssetCfg
  | [], _ => none
  | (k, c) :: rest, name => if k = name then some c else lookupC rest name

/-- The `ROTATION_CONFIG` document; every field is read through
`.get(key, default)` in the source, so every field is optional here. -/
structure RotCfg where
  enabled : Option Bool := none
  members : Option (List String) := none
  total_base_units : Option ℚ := none
  min_weight : Option ℚ := none
  max_weight : Option ℚ := none
  rebalance_threshold : Option ℚ := none
  group_name : Option String := none
deriving DecidableEq

/-- The clip of one raw weight into `[min_w, max_w]`:
`min(max(w, min_w), max_w)` in `compute_rotation_suggestions`. -/
def clipW (min_w max_w w : ℚ) : ℚ := min (max w min_w) max_w

/-- The raw rotation weights `score / total_score`, in member order. -/
def rotationRawWeights (scores : List ℚ) : List ℚ :=
  scores.map (fun s => s / scores.sum)

/-- The clipped rotation weights. -/
def rotationClippedWeights (min_w max_w : ℚ) (scores : List ℚ) : List ℚ :=
  (rotationRawWeights scores).map (clipW min_w max_w)

/-- The renormalized target rotation weights: each clipped weight divided by
the sum of the clipped weights. -/
def rotationWeights (min_w max_w : ℚ) (scores : List ℚ) : List ℚ :=
  (rotationClippedWeights min_w max_w scores).map
    (fun w => w / (rotationClippedWeights min_w max_w scores).sum)

/-- The rotation members that are present in `ETF_CONFIG`
(`[m for m in members if m in ETF_CONFIG]`), paired with their configs. -/
def eligibleEtfs (etfConfig : List (String × AssetCfg)) (r : RotCfg) :
    List (String × AssetCfg) :=
  (r.members.getD []).filterMap
    (fun m => (lookupC etfConfig m).map (fun c => (m, c)))

/-- The quantity `sum(ETF_CONFIG[n].get("base_units", 0) for n in etfs)`:
both the
fallback for an unset `total_base_units` and the current-unit total. -/
def memberBaseUnitsSum (etfConfig : List (String × AssetCfg)) (r : RotCfg) : ℚ :=
  ((eligibleEtfs etfConfig r).map (fun e => e.2.base_units.getD 0)).sum

/-- The one exception `compute_rotation_suggestions` can raise: a float
`ZeroDivisionError` when the clipped-weight sum is exactly zero. -/
inductive RotError where
  | zeroDivision
deriving DecidableEq

/-- The structured content of one rotation suggestion message (the
current/target unit and weight figures interpolated into the text are
elided; no property refers to them). -/
structure RotMsg where
  group_name : String
  etfs : List String
  expensive_name : String
  cheap_name : String
  suggested_units : ℚ
deriving DecidableEq

/-- The source function `compute_rotation_suggestions()` from `etf.py`, with
the module-level
`ETF_CONFIG` and `ROTATION_CONFIG` dictionaries as explicit inputs.
Statement order follows the source; dictionaries keyed by the member names
are modelled positionally, in the member order (a member list naming the
same asset twice is not modelled — the configuration maps each key once). -/
def compute_rotation_suggestions (etfConfig : List (String × AssetCfg))
    (rot : Option RotCfg) : Except RotError (List RotMsg) :=
  match rot with
  | none => .ok []
  | some r =>
    if r.enabled.getD false = false then .ok []
    else if (r.members.getD []).length < 2 then .ok []
    else
      let etfs := eligibleEtfs etfConfig r
      if etfs.length < 2 then .ok []
      else
        let tbu0 := r.total_base_units.getD 0
        let tbu := if tbu0 ≤ 0 then memberBaseUnitsSum etfConfig r else tbu0
        if tbu ≤ 0 then .ok []
        else
          let min_w := r.min_weight.getD (3/10)
          let max_w := r.max_weight.getD (7/10)
          let threshold := r.rebalance_threshold.getD (1/10)
          let scores := etfs.map (fun e => max (e.2.dividend_yield.getD 0) 0)
          if scores.sum ≤ 0 then .ok []
          else
            if (rotationClippedWeights min_w max_w scores).sum = 0 then
              .error .zeroDivision
            else
              let weights := rotationWeights min_w max_w scores
              let target_units := weights.map (fun w => pyRound (tbu * w))
              let current_units := etfs.map (fun e => e.2.base_units.getD 0)
              if current_units.sum ≤ 0 then .ok []
              else
                let current_weights :=
                  current_units.map (fun u => u / current_units.sum)
                let need := (current_weights.zip weights).any
                  (fun p => decide (threshold / 2 ≤ |p.1 - p.2|))
                if need = false then .ok []
                else
                  let diffs := (target_units.zip current_units).map
                    (fun p => (p.1 : ℚ) - p.2)
                  let named := (etfs.map (fun e => e.1)).zip diffs
                  let cheap := named.filter (fun p => decide (0 < p.2))
                  let expensive := named.filter (fun p => decide (p.2 < 0))
                  match cheap.head?, expensive.head? with
                  | some ch, some ex =>
                    let suggested := min ch.2 (-ex.2)
                    let stepOf := fun (n : String) =>
                      (lookupC etfConfig n).elim 0 (fun c =>
                        pyTrunc (c.base_units.getD 0 * c.step_pct.getD (1/100)))
                    let min_units : ℤ := max (max (stepOf ch.1) (stepOf ex.1)) 1
                    if suggested < (min_units : ℚ) then .ok []
                    else
                      .ok [{ group_name := r.group_name.getD "轮动策略",
                             etfs := etfs.map (fun e => e.1),
                             expensive_name := ex.1, cheap_name := ch.1,
                             suggested_units := suggested }]
                  | _, _ => .ok []

theorem list_sum_map_div (l : List ℚ) (c : ℚ) :
    (l.map (fun x => x / c)).sum = l.sum / c := by
  induction l with
  | nil => simp
  | cons a t ih => simp [ih, add_div]

theorem list_sum_pos_of_mem (l : List ℚ) (hnn : ∀ x ∈ l, 0 ≤ x) (x : ℚ)
    (hx : x ∈ l) (hxpos : 0 < x) : 0 < l.sum := by
  induction l with
  | nil => cases hx
  | cons a t ih =>
    rw [List.sum_cons]
    rcases List.mem_cons.mp hx with rfl | hx'
    · have ht : 0 ≤ t.sum :=
        List.sum_nonneg (fun y hy => hnn y (List.mem_cons_of_mem _ hy))
      linarith
    · have ha : 0 ≤ a := hnn a (List.mem_cons_self a t)
      have ht : 0 < t.sum :=
        ih (fun y hy => hnn y (List.mem_cons_of_mem _ hy)) hx'
      linarith

theorem list_sum_nonpos (l : List ℚ) (hc : ∀ x ∈ l, x ≤ 0) : l.sum ≤ 0 := by
  induction l with
  | nil => simp
  | cons a t ih =>
    rw [List.sum_cons]
    have ha : a ≤ 0 := hc a (List.mem_cons_self a t)
    have ht : t.sum ≤ 0 := ih (fun y hy => hc y (List.mem_cons_of_mem _ hy))
    linarith

theorem exists_pos_of_sum_pos (l : List ℚ) (h : 0 < l.sum) :
    ∃ x ∈ l, 0 < x := by
  by_contra hc
  push_neg at hc
  have hs : l.sum ≤ 0 := list_sum_nonpos l hc
  linarith

theorem clipW_nonneg (min_w max_w w : ℚ) (hw : 0 ≤ w) (hmax : 0 < max_w) :
    0 ≤ clipW min_w max_w w :=
  le_min (le_trans hw (le_max_left _ _)) hmax.le

theorem clipW_pos (min_w max_w w : ℚ) (hw : 0 < w) (hmax : 0 < max_w) :
    0 < clipW min_w max_w w :=
  lt_min (lt_of_lt_of_le hw (le_max_left _ _)) hmax

theorem clipW_bounds (min_w max_w w : ℚ) (h : min_w ≤ max_w) :
    min_w ≤ clipW min_w max_w w ∧ clipW min_w max_w w ≤ max_w :=
  ⟨le_min (le_max_right _ _) h, min_le_right _ _⟩

theorem clipped_sum_pos (min_w max_w : ℚ) (scores : List ℚ)
    (hnn : ∀ s ∈ scores, 0 ≤ s) (hpos : 0 < scores.sum) (hmax : 0 < max_w) :
    0 < (rotationClippedWeights min_w max_w scores).sum := by
  obtain ⟨x, hx, hxpos⟩ := exists_pos_of_sum_pos scores hpos
  refine list_sum_pos_of_mem _ ?_ (clipW min_w max_w (x / scores.sum)) ?_ ?_
  · intro y hy
    rw [rotationClippedWeights, List.mem_map] at hy
    obtain ⟨w, hw, rfl⟩ := hy
    rw [rotationRawWeights, List.mem_map] at hw
    obtain ⟨s, hs, rfl⟩ := hw
    exact clipW_nonneg _ _ _ (div_nonneg (hnn s hs) hpos.le) hmax
  · rw [rotationClippedWeights, List.mem_map]
    refine ⟨x / scores.sum, ?_, rfl⟩
    rw [rotationRawWeights, List.mem_map]
    exact ⟨x, hx, rfl⟩
  · exact clipW_pos _ _ _ (div_pos hxpos hpos) hmax

theorem clipped_sum_ne_zero (min_w max_w : ℚ) (scores : List ℚ)
    (hnn : ∀ s ∈ scores, 0 ≤ s) (hpos : 0 < scores.sum) (hmax : max_w ≠ 0) :
    (rotationClippedWeights min_w max_w scores).sum ≠ 0 := by
  rcases lt_or_gt_of_ne hmax with hneg | hposm
  · have hne : scores ≠ [] := by
      rintro rfl
      simp at hpos
    have hlist : rotationClippedWeights min_w max_w scores =
        List.replicate scores.length max_w := by
      refine List.eq_replicate_iff.mpr ⟨?_, ?_⟩
      · rw [rotationClippedWeights, rotationRawWeights, List.length_map,
          List.length_map]
      · intro b hb
        rw [rotationClippedWeights, List.mem_map] at hb
        obtain ⟨w, hw, rfl⟩ := hb
        rw [rotationRawWeights, List.mem_map] at hw
        obtain ⟨s, hs, rfl⟩ := hw
        have hw0 : (0 : ℚ) ≤ s / scores.sum :=
          div_nonneg (hnn s hs) hpos.le
        rw [clipW]
        exact min_eq_right (le_trans hneg.le
          (le_trans hw0 (le_max_left _ _)))
    rw [hlist, List.sum_replicate, nsmul_eq_mul]
    have hlen : 0 < scores.length := List.length_pos.mpr hne
    have : (scores.length : ℚ) * max_w < 0 :=
      mul_neg_of_pos_of_neg (by exact_mod_cast hlen) hneg
    linarith
  · exact (clipped_sum_pos min_w max_w scores hnn hpos hposm).ne'

/-- C7, counterexample: with two eligible members scoring `0.09` and `0.01`
and a feasible weight range `[0.1, 0.5]` (`2·0.1 ≤ 1 ≤ 2·0.5`), the
renormalized target weights computed by `compute_rotation_suggestions` are
`[5/6, 1/6]`: the first weight exceeds `max_weight = 0.5`, so a renormalized
weight need not lie in `[min_weight, max_weight]` even when that range is
feasible. -/
theorem rotation_weight_escapes_feasible_bounds :
    rotationWeights (1/10) (1/2) [9/100, 1/100] = [5/6, 1/6] ∧
    ((1 : ℚ)/2) < 5/6 ∧
    2 * ((1 : ℚ)/10) ≤ 1 ∧ (1 : ℚ) ≤ 2 * (1/2) := by
  refine ⟨?_, by norm_num, by norm_num, by norm_num⟩
  have hsum : ([(9 : ℚ)/100, 1/100]).sum = 1/10 := by
    norm_num [List.sum_cons, List.sum_nil]
  have hraw : rotationRawWeights [9/100, 1/100] = [9/10, 1/10] := by
    rw [rotationRawWeights, hsum]
    norm_num
  have hclip : rotationClippedWeights (1/10) (1/2) [9/100, 1/100] =
      [1/2, 1/10] := by
    rw [rotationClippedWeights, hraw]
    simp only [List.map_cons, List.map_nil, clipW]
    norm_num [max_def, min_def]
  rw [rotationWeights, hclip]
  norm_num [List.sum_cons, List.sum_nil]

/-- C7, amended: for every member score list with nonnegative scores and
positive total, and every weight range with `min_weight ≤ max_weight` and
`0 < max_weight`, the clipped-weight sum is positive (the renormalization
divides by a nonzero number — no NaN), the renormalized target weights sum
to exactly 1, and every *clipped* weight lies in `[min_weight, max_weight]`;
the renormalized weights themselves can leave that range. -/
theorem rotation_weights_sum_to_one (min_w max_w : ℚ) (scores : List ℚ)
    (hnn : ∀ s ∈ scores, 0 ≤ s) (hpos : 0 < scores.sum)
    (hmm : min_w ≤ max_w) (hmax : 0 < max_w) :
    0 < (rotationClippedWeights min_w max_w scores).sum ∧
    (rotationWeights min_w max_w scores).sum = 1 ∧
    ∀ w ∈ rotationClippedWeights min_w max_w scores,
      min_w ≤ w ∧ w ≤ max_w := by
  have hcs := clipped_sum_pos min_w max_w scores hnn hpos hmax
  refine ⟨hcs, ?_, ?_⟩
  · rw [rotationWeights, list_sum_map_div, div_self hcs.ne']
  · intro w hw
    rw [rotationClippedWeights, List.mem_map] at hw
    obtain ⟨v, -, rfl⟩ := hw
    exact clipW_bounds min_w max_w v hmm

theorem rotation_weights_sum_to_one_witness :
    0 < (rotationClippedWeights (3/10) (7/10) [8/100, 2/100]).sum ∧
    (rotationWeights (3/10) (7/10) [8/100, 2/100]).sum = 1 ∧
    ∀ w ∈ rotationClippedWeights (3/10) (7/10) [8/100, 2/100],
      (3 : ℚ)/10 ≤ w ∧ w ≤ 7/10 :=
  rotation_weights_sum_to_one (3/10) (7/10) [8/100, 2/100]
    (by intro s hs
        rcases List.mem_cons.mp hs with rfl | hs'
        · norm_num
        · rcases List.mem_cons.mp hs' with rfl | hs''
          · norm_num
          · cases hs'')
    (by norm_num [List.sum_cons, List.sum_nil])
    (by norm_num) (by norm_num)

/-- C10, amended: whenever no positive unit basis exists — the configured
`total_base_units` is not positive and the eligible members' `base_units`
sum is not positive either, or the members' current `base_units` sum is not
positive — `compute_rotation_suggestions` returns the empty list without
raising, provided `max_weight ≠ 0` (with `max_weight = 0` and a positive
total score the clipped-weight renormalization divides by zero instead). -/
theorem rotation_no_unit_basis_returns_empty
    (etfConfig : List (String × AssetCfg)) (r : RotCfg)
    (hbasis : (r.total_base_units.getD 0 ≤ 0 ∧
        memberBaseUnitsSum etfConfig r ≤ 0) ∨
      memberBaseUnitsSum etfConfig r ≤ 0)
    (hmax : r.max_weight.getD (7/10) ≠ 0) :
    compute_rotation_suggestions etfConfig (some r) = .ok [] := by
  have hS : memberBaseUnitsSum etfConfig r ≤ 0 := by
    rcases hbasis with ⟨-, h⟩ | h <;> exact h
  have hS' :
      ((eligibleEtfs etfConfig r).map (fun e => e.2.base_units.getD 0)).sum ≤ 0 := by
    rw [← memberBaseUnitsSum]
    exact hS
  have hnn : ∀ s ∈ (eligibleEtfs etfConfig r).map
      (fun e => max (e.2.dividend_yield.getD 0) 0), 0 ≤ s := by
    intro s hs
    rw [List.mem_map] at hs
    obtain ⟨e, -, rfl⟩ := hs
    exact le_max_right _ _
  simp only [compute_rotation_suggestions]
  split_ifs with g1 g2 g3 g4 g5 g6 <;> try rfl
  exact absurd g6 (clipped_sum_ne_zero _ _ _ hnn (lt_of_not_le g5) hmax)

theorem rotation_no_unit_basis_returns_empty_witness :
    compute_rotation_suggestions
      [("A", { symbol := "SA", base_price := 1, dividend_yield := some (5/100) }),
       ("B", { symbol := "SB", base_price := 1, dividend_yield := some (5/100) })]
      (some { enabled := some true, members := some ["A", "B"] }) = .ok [] :=
  rotation_no_unit_basis_returns_empty
    [("A", { symbol := "SA", base_price := 1, dividend_yield := some (5/100) }),
     ("B", { symbol := "SB", base_price := 1, dividend_yield := some (5/100) })]
    { enabled := some true, members := some ["A", "B"] }
    (Or.inl ⟨by norm_num,
      by simp [memberBaseUnitsSum, eligibleEtfs, lookupC]⟩)
    (by norm_num)

/-- C10, counterexample: with `max_weight = 0` configured, two eligible
members with positive yields, no positive current unit basis (both
`base_units` unset, so their sum is 0) but a positive configured
`total_base_units`, `compute_rotation_suggestions` reaches the clipped-weight
renormalization with a zero clipped sum and raises `ZeroDivisionError`
instead of returning the empty list. -/
theorem rotation_zero_division_not_empty :
    memberBaseUnitsSum
      [("A", { symbol := "SA", base_price := 1, dividend_yield := some (5/100) }),
       ("B", { symbol := "SB", base_price := 1, dividend_yield := some (5/100) })]
      { enabled := some true, members := some ["A", "B"],
        total_base_units := some 10, max_weight := some 0 } ≤ 0 ∧
    compute_rotation_suggestions
      [("A", { symbol := "SA", base_price := 1, dividend_yield := some (5/100) }),
       ("B", { symbol := "SB", base_price := 1, dividend_yield := some (5/100) })]
      (some { enabled := some true, members := some ["A", "B"],
              total_base_units := some 10, max_weight := some 0 }) =
      .error RotError.zeroDivision := by
  constructor
  · simp [memberBaseUnitsSum, eligibleEtfs, lookupC]
  · simp [compute_rotation_suggestions, eligibleEtfs, lookupC,
      memberBaseUnitsSum]
    norm_num [rotationClippedWeights, rotationRawWeights, clipW,
      List.sum_cons, List.sum_nil, max_def, min_def]
